import Mathlib

/-!
Shallow embedding of epan/secrets.c (Wireshark secrets management): the
secrets-type dispatch registry, the fingerprint-keyed RSA private-key
store, the UAT-driven key-loading pipeline, and the RSA decrypt
operation.

External collaborators are modelled explicitly:
- GLib hash tables become association lists; insertion replaces the
  value of an existing key in place, and (for tables created with
  destroy-notify functions, as privkey_hash_table_new does) the replaced
  value is recorded in a released list, modelling the call to
  gnutls_privkey_deinit by the value destroy function.
- GnuTLS and file I/O calls (ws_fopen, rsa_load_pem_key,
  rsa_load_pkcs12, gnutls_privkey_import_x509,
  gnutls_x509_privkey_get_key_id, gnutls_privkey_decrypt_data) are
  oracle functions supplied in LoadEnv / CryptoProvider records, since
  their behaviour is owned by external libraries.
- The global tables (secrets_callbacks, rsa_privkeys) are passed as
  explicit state.
-/

deriving instance DecidableEq for Except

namespace Secrets

/-- g_str_has_prefix: whether the string s starts with the given scheme
string, compared character by character. -/
def strStartsWith (scheme s : String) : Bool :=
  scheme.data.isPrefixOf s.data

/-- The cert_key_id_t type: a fixed 20-byte SHA-1 fingerprint of a public
key, modelled as a list of bytes of length 20.  key_id_equal compares
all 20 bytes (memcmp), which is exactly equality of the lists. -/
abbrev cert_key_id_t : Type := { l : List Nat // l.length = 20 }

/-- An opaque gnutls_privkey_t private-key handle. -/
abbrev gnutls_privkey_t : Type := Nat

/-- An opaque gnutls_x509_privkey_t handle produced by the key decoders. -/
abbrev gnutls_x509_privkey_t : Type := Nat

/-- An opaque secrets_block_callback_t function pointer, modelled by an
identifier; dispatch records which callback was invoked and with what
arguments. -/
abbrev secrets_block_callback_t : Type := Nat

/-- Lookup in a GHashTable modelled as an association list: the value
stored under the first (unique, by the no-duplicate invariant) entry
whose key equals the requested one. -/
def assocLookup {K V : Type} [DecidableEq K] : List (K × V) → K → Option V
  | [], _ => none
  | kv :: rest, k => if kv.1 = k then some kv.2 else assocLookup rest k

/-- Insertion in a GHashTable modelled as an association list:
g_hash_table_insert replaces the value of an existing key in place,
otherwise appends a new entry. -/
def assocInsert {K V : Type} [DecidableEq K] : List (K × V) → K → V → List (K × V)
  | [], k, v => [(k, v)]
  | kv :: rest, k, v => if kv.1 = k then (k, v) :: rest else kv :: assocInsert rest k v

/-- The rsa_privkeys hash table (created by privkey_hash_table_new with
key_id_hash / key_id_equal and destroy functions g_free /
gnutls_privkey_deinit).  entries is the live fingerprint-to-handle map;
released records every handle passed to gnutls_privkey_deinit by the
value destroy-notify, so that handle release is observable. -/
structure PrivkeyTable where
  entries : List (cert_key_id_t × gnutls_privkey_t)
  released : List gnutls_privkey_t
deriving DecidableEq

/-- The table returned by privkey_hash_table_new: empty, nothing released. -/
def privkey_hash_table_new : PrivkeyTable :=
  { entries := [], released := [] }

/-- g_hash_table_insert on the rsa_privkeys table: replaces the value of
an existing fingerprint, and the replaced handle is destroyed by the
value destroy function (gnutls_privkey_deinit), hence appended to
released. -/
def g_hash_table_insert_priv (t : PrivkeyTable) (k : cert_key_id_t)
    (v : gnutls_privkey_t) : PrivkeyTable :=
  { entries := assocInsert t.entries k v
    released := t.released ++ (assocLookup t.entries k).toList }

/-- g_hash_table_remove_all on the rsa_privkeys table: every entry is
removed and every held handle is destroyed (released). -/
def g_hash_table_remove_all (t : PrivkeyTable) : PrivkeyTable :=
  { entries := [], released := t.released ++ t.entries.map Prod.snd }

/-- g_hash_table_lookup on the rsa_privkeys table (the read performed by
secrets_rsa_decrypt, line 263). -/
def g_hash_table_lookup_priv (t : PrivkeyTable) (key_id : cert_key_id_t) :
    Option gnutls_privkey_t :=
  assocLookup t.entries key_id

/-- rsa_privkey_add (lines 115-122): duplicates the key id and inserts
the private key handle into rsa_privkeys (the g_debug call has no
observable effect on the store). -/
def rsa_privkey_add (t : PrivkeyTable) (key_id : cert_key_id_t)
    (pkey : gnutls_privkey_t) : PrivkeyTable :=
  g_hash_table_insert_priv t key_id pkey

/-- The secrets_callbacks hash table: maps a guint32 secrets type
(modelled as Nat, compared by g_direct_equal, i.e. by value) to a
registered callback. -/
abbrev SecretsCallbacks : Type := List (Nat × secrets_block_callback_t)

/-- secrets_register_type (lines 72-76): g_hash_table_insert, so a later
registration for the same type replaces the earlier one. -/
def secrets_register_type (tbl : SecretsCallbacks) (secrets_type : Nat)
    (cb : secrets_block_callback_t) : SecretsCallbacks :=
  assocInsert tbl secrets_type cb

/-- One observable callback invocation performed by
secrets_wtap_callback: which callback ran, on which bytes, with which
size argument. -/
structure Invocation where
  cb : secrets_block_callback_t
  secrets : List Nat
  size : Nat
deriving DecidableEq

/-- secrets_wtap_callback (lines 78-86): looks the type up in
secrets_callbacks and, only if a callback is registered, invokes it
once with the given bytes.  The function mutates nothing; its only
observable effect is the (possibly empty) list of invocations. -/
def secrets_wtap_callback (tbl : SecretsCallbacks) (secrets_type : Nat)
    (secrets : List Nat) (size : Nat) : List Invocation :=
  match assocLookup tbl secrets_type with
  | some cb => [{ cb := cb, secrets := secrets, size := size }]
  | none => []

/-- The external environment of load_rsa_keyfile: file I/O and GnuTLS
decode / import / fingerprint calls, as oracle functions. -/
structure LoadEnv where
  ws_fopen : String → Bool
  g_strerror_errno : String
  rsa_load_pem_key : String → Except String gnutls_x509_privkey_t
  rsa_load_pkcs12 : String → String → Except String gnutls_x509_privkey_t
  gnutls_privkey_import_x509 : gnutls_x509_privkey_t → Int
  privkeyOf : gnutls_x509_privkey_t → gnutls_privkey_t
  gnutls_x509_privkey_get_key_id : gnutls_x509_privkey_t → Except Int cert_key_id_t
  gnutls_strerror : Int → String

/-- The error message of lines 157 and 169: Error loading RSA key file
FILENAME: MSG. -/
def errLoadMsg (filename msg : String) : String :=
  "Error loading RSA key file " ++ filename ++ ": " ++ msg

/-- The error message of line 178: Error importing private key
FILENAME: MSG. -/
def errImportMsg (filename msg : String) : String :=
  "Error importing private key " ++ filename ++ ": " ++ msg

/-- The error message of line 183: Error calculating Key ID for
FILENAME: MSG. -/
def errKeyIdMsg (filename msg : String) : String :=
  "Error calculating Key ID for " ++ filename ++ ": " ++ msg

/-- The decode step of load_rsa_keyfile (lines 161-166): an empty
password (password[0] == 0) selects rsa_load_pem_key, a non-empty
password selects rsa_load_pkcs12. -/
def decodedKey (env : LoadEnv) (filename password : String) :
    Except String gnutls_x509_privkey_t :=
  if password = "" then env.rsa_load_pem_key filename
  else env.rsa_load_pkcs12 filename password

/-- load_rsa_keyfile (lines 145-194), acting on the rsa_privkeys table t.
Returns the updated table and the error written through the err out
parameter (none on success).  Failure paths: fopen failure, decode
failure, import failure (ret < 0), key-id failure (ret < 0 or size
mismatch, folded into the Except result of the oracle); each leaves the
table unchanged.  On success the key is added via rsa_privkey_add. -/
def load_rsa_keyfile (env : LoadEnv) (t : PrivkeyTable)
    (filename password : String) : PrivkeyTable × Option String :=
  if env.ws_fopen filename = false then
    (t, some (errLoadMsg filename env.g_strerror_errno))
  else
    match decodedKey env filename password with
    | Except.error errmsg => (t, some (errLoadMsg filename errmsg))
    | Except.ok x509_priv_key =>
      if env.gnutls_privkey_import_x509 x509_priv_key < 0 then
        (t, some (errImportMsg filename
          (env.gnutls_strerror (env.gnutls_privkey_import_x509 x509_priv_key))))
      else
        match env.gnutls_x509_privkey_get_key_id x509_priv_key with
        | Except.error ret => (t, some (errKeyIdMsg filename (env.gnutls_strerror ret)))
        | Except.ok key_id =>
          (rsa_privkey_add t key_id (env.privkeyOf x509_priv_key), none)

/-- One configured key source, rsa_privkey_record_t: a URI (filesystem
path or pkcs11: token URI) and a password / PIN. -/
structure rsa_privkey_record_t where
  uri : String
  password : String
deriving DecidableEq

/-- The pkcs11: URI scheme tested by g_str_has_prefix at line 208. -/
def PKCS11_URI : String := "pkcs11:"

/-- The loop body of uat_rsa_privkeys_post_update (lines 203-220), on
the accumulator (current rsa_privkeys table, errors recorded so far): a
pkcs11: URI is skipped entirely (empty branch at line 208); otherwise
load_rsa_keyfile runs and, if it reported an error, that one error is
appended. -/
def processOne (env : LoadEnv) (acc : PrivkeyTable × List String)
    (rec : rsa_privkey_record_t) : PrivkeyTable × List String :=
  if strStartsWith PKCS11_URI rec.uri then acc
  else
    match load_rsa_keyfile env acc.1 rec.uri rec.password with
    | (t, none) => (t, acc.2)
    | (t, some err) => (t, acc.2 ++ [err])

/-- The header of the aggregated error report (line 214). -/
def errReportHeader : String := "Error processing rsa_privkeys:"

/-- The aggregated multi-line report built by lines 213-218: the header,
then a newline and the error for each failed source, in order. -/
def aggregateErrors (errs : List String) : String :=
  errReportHeader ++ String.join (errs.map fun e => "\n" ++ e)

/-- The observable outcome of uat_rsa_privkeys_post_update: the final
rsa_privkeys table, the per-source errors recorded (in order), and the
list of report_failure calls made (line 222: one aggregated report when
any errors were recorded, none otherwise). -/
structure PostUpdateResult where
  rsa_privkeys : PrivkeyTable
  errors : List String
  reports : List String
deriving DecidableEq

/-- uat_rsa_privkeys_post_update (lines 196-225), acting on the current
rsa_privkeys table t0: clear all previous keys, process every configured
record in order accumulating per-source errors, then report the
aggregated errors once if any were recorded. -/
def uat_rsa_privkeys_post_update (env : LoadEnv)
    (uat_rsa_privkeys : List rsa_privkey_record_t) (t0 : PrivkeyTable) :
    PostUpdateResult :=
  let cleared := g_hash_table_remove_all t0
  let res := uat_rsa_privkeys.foldl (processOne env) (cleared, [])
  { rsa_privkeys := res.1
    errors := res.2
    reports := if res.2 = [] then [] else [aggregateErrors res.2] }

/-- The crypto provider used by secrets_rsa_decrypt:
gnutls_privkey_decrypt_data as an oracle returning (return code,
plaintext bytes); the plaintext is meaningful only when the return code
is 0. -/
structure CryptoProvider where
  gnutls_privkey_decrypt_data : gnutls_privkey_t → List Nat → Int × List Nat

/-- GNUTLS_E_NO_CERTIFICATE_FOUND, returned by secrets_rsa_decrypt when
the fingerprint is not in the store (line 265). -/
def GNUTLS_E_NO_CERTIFICATE_FOUND : Int := -49

/-- The caller-owned output locations of secrets_rsa_decrypt (*out and
*out_len), threaded through the call so that (non-)writes to them are
observable. -/
structure DecryptOut where
  out : List Nat
  out_len : Int
deriving DecidableEq

/-- secrets_rsa_decrypt (lines 256-276), reading the rsa_privkeys table
t: look the fingerprint up; if absent return
GNUTLS_E_NO_CERTIFICATE_FOUND; otherwise call the provider decrypt and,
only when it returned 0, write the duplicated plaintext and its length
to the output locations; the provider return code is returned as is. -/
def secrets_rsa_decrypt (P : CryptoProvider) (t : PrivkeyTable)
    (key_id : cert_key_id_t) (encr : List Nat) (o : DecryptOut) :
    Int × DecryptOut :=
  match g_hash_table_lookup_priv t key_id with
  | none => (GNUTLS_E_NO_CERTIFICATE_FOUND, o)
  | some pkey =>
    let r := P.gnutls_privkey_decrypt_data pkey encr
    if r.1 = 0 then (r.1, { out := r.2, out_len := Int.ofNat r.2.length })
    else (r.1, o)

/-- The outcome of load_rsa_keyfile for a given source, independent of
the table it acts on: either the error it records, or the
fingerprint-handle pair it adds.  Proven equivalent to load_rsa_keyfile
by load_rsa_keyfile_eq_loadOutcome. -/
def loadOutcome (env : LoadEnv) (filename password : String) :
    Except String (cert_key_id_t × gnutls_privkey_t) :=
  if env.ws_fopen filename = false then
    Except.error (errLoadMsg filename env.g_strerror_errno)
  else
    match decodedKey env filename password with
    | Except.error errmsg => Except.error (errLoadMsg filename errmsg)
    | Except.ok x509_priv_key =>
      if env.gnutls_privkey_import_x509 x509_priv_key < 0 then
        Except.error (errImportMsg filename
          (env.gnutls_strerror (env.gnutls_privkey_import_x509 x509_priv_key)))
      else
        match env.gnutls_x509_privkey_get_key_id x509_priv_key with
        | Except.error ret => Except.error (errKeyIdMsg filename (env.gnutls_strerror ret))
        | Except.ok key_id => Except.ok (key_id, env.privkeyOf x509_priv_key)

/-- The effect of processing one configured record on the rsa_privkeys
table alone (the store component of processOne). -/
def stepStore (env : LoadEnv) (t : PrivkeyTable) (rec : rsa_privkey_record_t) :
    PrivkeyTable :=
  if strStartsWith PKCS11_URI rec.uri then t
  else
    match loadOutcome env rec.uri rec.password with
    | Except.ok kv => rsa_privkey_add t kv.1 kv.2
    | Except.error _ => t

/-- The error recorded for one configured record: none for a skipped
pkcs11: source or a successful load, the per-source error otherwise. -/
def sourceError (env : LoadEnv) (rec : rsa_privkey_record_t) : Option String :=
  if strStartsWith PKCS11_URI rec.uri then none
  else
    match loadOutcome env rec.uri rec.password with
    | Except.ok _ => none
    | Except.error e => some e

/-- The fingerprint-handle pair a configured record contributes to the
store: none for a skipped pkcs11: source or a failed load. -/
def sourceKey (env : LoadEnv) (rec : rsa_privkey_record_t) :
    Option (cert_key_id_t × gnutls_privkey_t) :=
  if strStartsWith PKCS11_URI rec.uri then none
  else
    match loadOutcome env rec.uri rec.password with
    | Except.ok kv => some kv
    | Except.error _ => none

/-- The fingerprints of all sources that load successfully, in order. -/
def loadedFingerprints (env : LoadEnv) (records : List rsa_privkey_record_t) :
    List cert_key_id_t :=
  records.filterMap fun rec => (sourceKey env rec).map Prod.fst

theorem load_rsa_keyfile_eq_loadOutcome (env : LoadEnv) (t : PrivkeyTable)
    (filename password : String) :
    load_rsa_keyfile env t filename password =
      match loadOutcome env filename password with
      | Except.ok kv => (rsa_privkey_add t kv.1 kv.2, none)
      | Except.error e => (t, some e) := by
  unfold load_rsa_keyfile loadOutcome
  by_cases h1 : env.ws_fopen filename = false
  · simp [h1]
  · simp only [h1, if_false]
    match hdec : decodedKey env filename password with
    | Except.error errmsg => simp
    | Except.ok x509 =>
      by_cases h2 : env.gnutls_privkey_import_x509 x509 < 0
      · simp [h2]
      · simp only [h2, if_false]
        match hkid : env.gnutls_x509_privkey_get_key_id x509 with
        | Except.error ret => simp
        | Except.ok key_id => simp

theorem processOne_eq (env : LoadEnv) (t : PrivkeyTable) (es : List String)
    (rec : rsa_privkey_record_t) :
    processOne env (t, es) rec =
      (stepStore env t rec, es ++ (sourceError env rec).toList) := by
  unfold processOne stepStore sourceError
  by_cases hp : strStartsWith PKCS11_URI rec.uri
  · simp [hp]
  · simp only [hp, if_false]
    rw [load_rsa_keyfile_eq_loadOutcome]
    match h : loadOutcome env rec.uri rec.password with
    | Except.ok kv => simp
    | Except.error e => simp

theorem foldl_processOne (env : LoadEnv) (records : List rsa_privkey_record_t)
    (t : PrivkeyTable) (es : List String) :
    records.foldl (processOne env) (t, es) =
      (records.foldl (stepStore env) t,
       es ++ records.filterMap (sourceError env)) := by
  induction records generalizing t es with
  | nil => simp
  | cons rec rest ih =>
    simp only [List.foldl_cons, List.filterMap_cons, processOne_eq]
    rw [ih]
    match h : sourceError env rec with
    | none => simp
    | some e => simp

theorem post_update_store (env : LoadEnv) (records : List rsa_privkey_record_t)
    (t0 : PrivkeyTable) :
    (uat_rsa_privkeys_post_update env records t0).rsa_privkeys =
      records.foldl (stepStore env) (g_hash_table_remove_all t0) := by
  simp only [uat_rsa_privkeys_post_update, foldl_processOne]

theorem post_update_errors (env : LoadEnv) (records : List rsa_privkey_record_t)
    (t0 : PrivkeyTable) :
    (uat_rsa_privkeys_post_update env records t0).errors =
      records.filterMap (sourceError env) := by
  simp only [uat_rsa_privkeys_post_update, foldl_processOne]
  simp

theorem post_update_reports (env : LoadEnv) (records : List rsa_privkey_record_t)
    (t0 : PrivkeyTable) :
    (uat_rsa_privkeys_post_update env records t0).reports =
      (if (uat_rsa_privkeys_post_update env records t0).errors = [] then []
       else [aggregateErrors (uat_rsa_privkeys_post_update env records t0).errors]) := by
  simp only [uat_rsa_privkeys_post_update, foldl_processOne]

theorem assocLookup_insert_self {K V : Type} [DecidableEq K]
    (l : List (K × V)) (k : K) (v : V) :
    assocLookup (assocInsert l k v) k = some v := by
  induction l with
  | nil => simp [assocInsert, assocLookup]
  | cons kv rest ih =>
    by_cases h : kv.1 = k
    · simp [assocInsert, assocLookup, h]
    · simp [assocInsert, assocLookup, h, ih]

theorem assocLookup_insert_ne {K V : Type} [DecidableEq K]
    (l : List (K × V)) (k k2 : K) (v : V) (h : k2 ≠ k) :
    assocLookup (assocInsert l k v) k2 = assocLookup l k2 := by
  have hne : ¬ k = k2 := fun he => h he.symm
  induction l with
  | nil =>
    simp only [assocInsert, assocLookup]
    rw [if_neg hne]
  | cons kv rest ih =>
    by_cases hk : kv.1 = k
    · subst hk
      simp only [assocInsert, if_pos rfl, assocLookup]
      rw [if_neg hne, if_neg hne]
    · simp only [assocInsert, hk, if_false, assocLookup, ih]

theorem assocInsert_keys {K V : Type} [DecidableEq K]
    (l : List (K × V)) (k : K) (v : V) :
    (assocInsert l k v).map Prod.fst =
      if k ∈ l.map Prod.fst then l.map Prod.fst
      else l.map Prod.fst ++ [k] := by
  induction l with
  | nil => simp [assocInsert]
  | cons kv rest ih =>
    by_cases hk : kv.1 = k
    · simp [assocInsert, hk]
    · simp only [assocInsert, hk, if_false, List.map_cons, ih]
      have hne : ¬ k = kv.1 := fun he => hk he.symm
      by_cases hmem : k ∈ rest.map Prod.fst
      · simp [hmem, hne]
      · simp [hmem, hne]

theorem assocInsert_keys_nodup {K V : Type} [DecidableEq K]
    (l : List (K × V)) (k : K) (v : V) (h : (l.map Prod.fst).Nodup) :
    ((assocInsert l k v).map Prod.fst).Nodup := by
  rw [assocInsert_keys]
  by_cases hmem : k ∈ l.map Prod.fst
  · simpa [hmem] using h
  · simp only [hmem, if_false]
    refine List.Nodup.append h (List.nodup_singleton k) ?_
    intro a ha hb
    rw [List.mem_singleton] at hb
    subst hb
    exact hmem ha

theorem lookup_add_self (t : PrivkeyTable) (k : cert_key_id_t)
    (v : gnutls_privkey_t) :
    g_hash_table_lookup_priv (rsa_privkey_add t k v) k = some v := by
  simp only [g_hash_table_lookup_priv, rsa_privkey_add, g_hash_table_insert_priv]
  exact assocLookup_insert_self t.entries k v

theorem lookup_add_ne (t : PrivkeyTable) (k k2 : cert_key_id_t)
    (v : gnutls_privkey_t) (h : k2 ≠ k) :
    g_hash_table_lookup_priv (rsa_privkey_add t k v) k2 =
      g_hash_table_lookup_priv t k2 := by
  simp only [g_hash_table_lookup_priv, rsa_privkey_add, g_hash_table_insert_priv]
  exact assocLookup_insert_ne t.entries k k2 v h

theorem stepStore_none (env : LoadEnv) (t : PrivkeyTable)
    (rec : rsa_privkey_record_t) (h : sourceKey env rec = none) :
    stepStore env t rec = t := by
  unfold stepStore
  unfold sourceKey at h
  by_cases hp : strStartsWith PKCS11_URI rec.uri
  · rw [if_pos hp]
  · rw [if_neg hp]
    rw [if_neg hp] at h
    cases ho : loadOutcome env rec.uri rec.password with
    | error e => rfl
    | ok kv => rw [ho] at h; simp at h

theorem stepStore_some (env : LoadEnv) (t : PrivkeyTable)
    (rec : rsa_privkey_record_t) (kv : cert_key_id_t × gnutls_privkey_t)
    (h : sourceKey env rec = some kv) :
    stepStore env t rec = rsa_privkey_add t kv.1 kv.2 := by
  unfold stepStore
  unfold sourceKey at h
  by_cases hp : strStartsWith PKCS11_URI rec.uri
  · rw [if_pos hp] at h; simp at h
  · rw [if_neg hp]
    rw [if_neg hp] at h
    cases ho : loadOutcome env rec.uri rec.password with
    | error e => rw [ho] at h; simp at h
    | ok kv2 =>
      rw [ho] at h
      simp only [Option.some.injEq] at h
      rw [h]

theorem lookup_stepStore_ne_none (env : LoadEnv) (t : PrivkeyTable)
    (rec : rsa_privkey_record_t) (k : cert_key_id_t)
    (h : g_hash_table_lookup_priv t k ≠ none) :
    g_hash_table_lookup_priv (stepStore env t rec) k ≠ none := by
  cases hsk : sourceKey env rec with
  | none => rw [stepStore_none env t rec hsk]; exact h
  | some kv =>
    rw [stepStore_some env t rec kv hsk]
    by_cases hk : k = kv.1
    · subst hk
      rw [lookup_add_self]
      simp
    · rw [lookup_add_ne t kv.1 k kv.2 hk]
      exact h

theorem lookup_foldl_ne_none (env : LoadEnv) (records : List rsa_privkey_record_t)
    (t : PrivkeyTable) (k : cert_key_id_t)
    (h : g_hash_table_lookup_priv t k ≠ none) :
    g_hash_table_lookup_priv (records.foldl (stepStore env) t) k ≠ none := by
  induction records generalizing t with
  | nil => exact h
  | cons rec rest ih =>
    simp only [List.foldl_cons]
    exact ih (stepStore env t rec) (lookup_stepStore_ne_none env t rec k h)

theorem lookup_foldl_of_source (env : LoadEnv)
    (records : List rsa_privkey_record_t) :
    ∀ (t : PrivkeyTable) (rec : rsa_privkey_record_t), rec ∈ records →
    ∀ kv : cert_key_id_t × gnutls_privkey_t, sourceKey env rec = some kv →
    g_hash_table_lookup_priv (records.foldl (stepStore env) t) kv.1 ≠ none := by
  induction records with
  | nil => intro t rec hmem; cases hmem
  | cons rec2 rest ih =>
    intro t rec hmem kv hkv
    simp only [List.foldl_cons]
    rcases List.mem_cons.mp hmem with heq | hrest
    · subst heq
      apply lookup_foldl_ne_none
      rw [stepStore_some env t rec kv hkv, lookup_add_self]
      simp
    · exact ih (stepStore env t rec2) rec hrest kv hkv

theorem loadedFingerprints_cons (env : LoadEnv) (rec : rsa_privkey_record_t)
    (rest : List rsa_privkey_record_t) :
    loadedFingerprints env (rec :: rest) =
      ((sourceKey env rec).map Prod.fst).toList ++ loadedFingerprints env rest := by
  unfold loadedFingerprints
  cases hsk : sourceKey env rec <;> simp [List.filterMap_cons, hsk]

theorem lookup_foldl_not_loaded (env : LoadEnv)
    (records : List rsa_privkey_record_t) :
    ∀ (t : PrivkeyTable) (k : cert_key_id_t), k ∉ loadedFingerprints env records →
    g_hash_table_lookup_priv (records.foldl (stepStore env) t) k =
      g_hash_table_lookup_priv t k := by
  induction records with
  | nil => intro t k h; rfl
  | cons rec rest ih =>
    intro t k h
    rw [loadedFingerprints_cons] at h
    simp only [List.mem_append, not_or] at h
    simp only [List.foldl_cons]
    cases hsk : sourceKey env rec with
    | none =>
      rw [stepStore_none env t rec hsk]
      exact ih t k h.2
    | some kv =>
      rw [hsk] at h
      have hk : k ≠ kv.1 := by
        intro he
        exact h.1 (by simp [he])
      rw [stepStore_some env t rec kv hsk,
        ih (rsa_privkey_add t kv.1 kv.2) k h.2]
      exact lookup_add_ne t kv.1 k kv.2 hk

theorem stepStore_entries_congr (env : LoadEnv) (t t2 : PrivkeyTable)
    (rec : rsa_privkey_record_t) (h : t.entries = t2.entries) :
    (stepStore env t rec).entries = (stepStore env t2 rec).entries := by
  cases hsk : sourceKey env rec with
  | none => rw [stepStore_none env t rec hsk, stepStore_none env t2 rec hsk]; exact h
  | some kv =>
    rw [stepStore_some env t rec kv hsk, stepStore_some env t2 rec kv hsk]
    show (assocInsert t.entries kv.1 kv.2) = (assocInsert t2.entries kv.1 kv.2)
    rw [h]

theorem foldl_stepStore_entries_congr (env : LoadEnv)
    (records : List rsa_privkey_record_t) :
    ∀ t t2 : PrivkeyTable, t.entries = t2.entries →
    (records.foldl (stepStore env) t).entries =
      (records.foldl (stepStore env) t2).entries := by
  induction records with
  | nil => intro t t2 h; exact h
  | cons rec rest ih =>
    intro t t2 h
    simp only [List.foldl_cons]
    exact ih (stepStore env t rec) (stepStore env t2 rec)
      (stepStore_entries_congr env t t2 rec h)

/-- The store invariant observed by claim C5: the entries of the
rsa_privkeys table hold at most one handle per fingerprint (the list of
fingerprints has no duplicates). -/
def NoDupKeys (t : PrivkeyTable) : Prop :=
  (t.entries.map Prod.fst).Nodup

instance (t : PrivkeyTable) : Decidable (NoDupKeys t) :=
  List.nodupDecidable (t.entries.map Prod.fst)

theorem NoDupKeys_add (t : PrivkeyTable) (k : cert_key_id_t)
    (v : gnutls_privkey_t) (h : NoDupKeys t) :
    NoDupKeys (rsa_privkey_add t k v) := by
  unfold NoDupKeys at h ⊢
  show ((assocInsert t.entries k v).map Prod.fst).Nodup
  exact assocInsert_keys_nodup t.entries k v h

theorem NoDupKeys_stepStore (env : LoadEnv) (t : PrivkeyTable)
    (rec : rsa_privkey_record_t) (h : NoDupKeys t) :
    NoDupKeys (stepStore env t rec) := by
  cases hsk : sourceKey env rec with
  | none => rw [stepStore_none env t rec hsk]; exact h
  | some kv => rw [stepStore_some env t rec kv hsk]; exact NoDupKeys_add t kv.1 kv.2 h

theorem NoDupKeys_foldl (env : LoadEnv) (records : List rsa_privkey_record_t)
    (t : PrivkeyTable) (h : NoDupKeys t) :
    NoDupKeys (records.foldl (stepStore env) t) := by
  induction records generalizing t with
  | nil => exact h
  | cons rec rest ih =>
    exact ih (stepStore env t rec) (NoDupKeys_stepStore env t rec h)

/-- One operation of the key-store interface: adding a key
(rsa_privkey_add), a pure lookup (the read of secrets_rsa_decrypt), clearing
(g_hash_table_remove_all), or a full reload
(uat_rsa_privkeys_post_update with some environment and record list). -/
inductive StoreOp where
  | add (key_id : cert_key_id_t) (pkey : gnutls_privkey_t)
  | lookup (key_id : cert_key_id_t)
  | clear
  | reload (env : LoadEnv) (records : List rsa_privkey_record_t)

/-- The effect of one StoreOp on the rsa_privkeys table (a lookup is a
pure read and leaves the table unchanged). -/
def applyOp (t : PrivkeyTable) : StoreOp → PrivkeyTable
  | StoreOp.add k v => rsa_privkey_add t k v
  | StoreOp.lookup _ => t
  | StoreOp.clear => g_hash_table_remove_all t
  | StoreOp.reload env records =>
    (uat_rsa_privkeys_post_update env records t).rsa_privkeys

theorem NoDupKeys_applyOp (t : PrivkeyTable) (op : StoreOp)
    (h : NoDupKeys t) : NoDupKeys (applyOp t op) := by
  match op with
  | StoreOp.add k v => exact NoDupKeys_add t k v h
  | StoreOp.lookup k => exact h
  | StoreOp.clear => simp [applyOp, NoDupKeys, g_hash_table_remove_all]
  | StoreOp.reload env records =>
    show NoDupKeys (uat_rsa_privkeys_post_update env records t).rsa_privkeys
    rw [post_update_store]
    exact NoDupKeys_foldl env records (g_hash_table_remove_all t)
      (by simp [NoDupKeys, g_hash_table_remove_all])

/-- The sequence of store states observable while an in-place reload
(uat_rsa_privkeys_post_update) is running: the pre-reload table, then
the table right after g_hash_table_remove_all (line 200), then the
table after each record of the configured list is processed in turn.
A lookup interleaved with the reload reads one of these states. -/
def reloadStates (env : LoadEnv) (records : List rsa_privkey_record_t)
    (t0 : PrivkeyTable) : List PrivkeyTable :=
  t0 :: List.scanl (fun t rec => (processOne env (t, []) rec).1)
    (g_hash_table_remove_all t0) records

/-- The atomicity property asserted by claim C4 for a reload over a
given environment, record list and pre-reload store: every state
observable by an interleaved lookup equals (in its live entries) either
the complete pre-reload store or the complete post-reload store. -/
def reloadAtomic (env : LoadEnv) (records : List rsa_privkey_record_t)
    (t0 : PrivkeyTable) : Prop :=
  ∀ s ∈ reloadStates env records t0,
    s.entries = t0.entries ∨
    s.entries = (uat_rsa_privkeys_post_update env records t0).rsa_privkeys.entries

/-- The no-empty-window property asserted by claim C4: when at least one
load has completed successfully (the pre-reload store is non-empty), no
state observable by an interleaved lookup has zero keys. -/
def noEmptyWindow (env : LoadEnv) (records : List rsa_privkey_record_t)
    (t0 : PrivkeyTable) : Prop :=
  t0.entries ≠ [] → ∀ s ∈ reloadStates env records t0, s.entries ≠ []

theorem getLast?_scanl {α β : Type} (f : β → α → β) :
    ∀ (l : List α) (b : β), (List.scanl f b l).getLast? = some (l.foldl f b) := by
  intro l
  induction l with
  | nil => intro b; rfl
  | cons x xs ih =>
    intro b
    rw [List.scanl_cons, List.foldl_cons, ← ih (f b x)]
    cases hxs : List.scanl f (f b x) xs with
    | nil => cases xs <;> simp [List.scanl] at hxs
    | cons y ys =>
      show (b :: y :: ys).getLast? = (y :: ys).getLast?
      simp [List.getLast?_cons_cons]

theorem processOne_fst (env : LoadEnv) (t : PrivkeyTable) (es : List String)
    (rec : rsa_privkey_record_t) :
    (processOne env (t, es) rec).1 = stepStore env t rec := by
  rw [processOne_eq]

/-! Concrete fixtures used by the witness and counterexample theorems:
a small environment in which one PEM source loads successfully, every
PKCS#12 source fails (wrong password), and a pkcs11: token URI appears. -/

/-- A fingerprint of twenty zero bytes. -/
def kidA : cert_key_id_t := ⟨List.replicate 20 0, by simp⟩

/-- A fingerprint of twenty one-bytes. -/
def kidB : cert_key_id_t := ⟨List.replicate 20 1, by simp⟩

/-- The fingerprint the fixture environment computes for the key decoded
from the good PEM file (x509 handle 1). -/
def kidG : cert_key_id_t := ⟨List.replicate 19 0 ++ [1], by simp⟩

/-- A store holding one key: fingerprint kidA mapped to handle 7. -/
def tW : PrivkeyTable := rsa_privkey_add privkey_hash_table_new kidA 7

/-- A provider whose decrypt always succeeds with plaintext [1, 2]. -/
def provW : CryptoProvider :=
  { gnutls_privkey_decrypt_data := fun _ _ => (0, [1, 2]) }

/-- Initial contents of the caller output locations. -/
def oW : DecryptOut := { out := [], out_len := 0 }

/-- Path of the fixture PEM source that decodes successfully. -/
def fileGood : String := "good.pem"

/-- Path of the fixture PKCS#12 source whose password is wrong. -/
def fileBad : String := "bad.p12"

/-- Fixture decode-failure diagnostic for the PKCS#12 source. -/
def msgMac : String := "MAC verification failed"

/-- Fixture decode-failure diagnostic for a non-PEM file. -/
def msgNotPem : String := "file is not a PEM key"

/-- The configured record for the good PEM source (empty password). -/
def recGood : rsa_privkey_record_t := { uri := fileGood, password := "" }

/-- The configured record for the bad PKCS#12 source (non-empty password). -/
def recBad : rsa_privkey_record_t := { uri := fileBad, password := "hunter2" }

/-- A configured record with a pkcs11: token URI. -/
def recToken : rsa_privkey_record_t :=
  { uri := "pkcs11:object=mykey", password := "1234" }

/-- The fixture environment: every file opens, PEM decoding succeeds
only on fileGood (as x509 handle 1), PKCS#12 decoding always fails,
importing succeeds, and the key id of x509 handle x is nineteen zero
bytes followed by x. -/
def envW : LoadEnv :=
  { ws_fopen := fun _ => true
    g_strerror_errno := "No such file or directory"
    rsa_load_pem_key := fun f =>
      if f = fileGood then Except.ok 1 else Except.error msgNotPem
    rsa_load_pkcs12 := fun _ _ => Except.error msgMac
    gnutls_privkey_import_x509 := fun _ => 0
    privkeyOf := fun x => x + 100
    gnutls_x509_privkey_get_key_id := fun x =>
      Except.ok ⟨List.replicate 19 0 ++ [x], by simp⟩
    gnutls_strerror := fun _ => "unknown error" }

/-- The fixture batch: the failing PKCS#12 source, then the good PEM one. -/
def recsW : List rsa_privkey_record_t := [recBad, recGood]

/-- A registry with callback 10 registered for type 1. -/
def tblW : SecretsCallbacks := secrets_register_type [] 1 10

/-- A fixture operation sequence exercising add, replace, lookup, clear
and reload. -/
def opsW : List StoreOp :=
  [StoreOp.add kidA 5, StoreOp.add kidA 6, StoreOp.lookup kidA,
   StoreOp.clear, StoreOp.add kidB 8, StoreOp.reload envW recsW]

/-- Claim C1: for every fingerprint and ciphertext, secrets_rsa_decrypt
first looks the fingerprint up in the private-key store: if no key with
that fingerprint is present it fails with GNUTLS_E_NO_CERTIFICATE_FOUND
(the KeyNotFound result); if a key is present it invokes the crypto
asymmetric decrypt of the provider with that key, returning the plaintext
bytes and their length on provider success (return code 0), and failing
with the diagnostic code of the provider on provider failure. -/
theorem secrets_rsa_decrypt_spec (P : CryptoProvider) (t : PrivkeyTable)
    (key_id : cert_key_id_t) (encr : List Nat) (o : DecryptOut) :
    (g_hash_table_lookup_priv t key_id = none →
      secrets_rsa_decrypt P t key_id encr o = (GNUTLS_E_NO_CERTIFICATE_FOUND, o))
    ∧ (∀ pkey, g_hash_table_lookup_priv t key_id = some pkey →
        ((P.gnutls_privkey_decrypt_data pkey encr).1 = 0 →
          secrets_rsa_decrypt P t key_id encr o =
            (0, { out := (P.gnutls_privkey_decrypt_data pkey encr).2,
                  out_len := Int.ofNat
                    (P.gnutls_privkey_decrypt_data pkey encr).2.length }))
        ∧ ((P.gnutls_privkey_decrypt_data pkey encr).1 ≠ 0 →
          secrets_rsa_decrypt P t key_id encr o =
            ((P.gnutls_privkey_decrypt_data pkey encr).1, o))) := by
  refine ⟨?_, ?_⟩
  · intro h
    unfold secrets_rsa_decrypt
    rw [h]
  · intro pkey h
    have hval : secrets_rsa_decrypt P t key_id encr o =
        (if (P.gnutls_privkey_decrypt_data pkey encr).1 = 0
         then ((P.gnutls_privkey_decrypt_data pkey encr).1,
           { out := (P.gnutls_privkey_decrypt_data pkey encr).2,
             out_len := Int.ofNat
               (P.gnutls_privkey_decrypt_data pkey encr).2.length })
         else ((P.gnutls_privkey_decrypt_data pkey encr).1, o)) := by
      unfold secrets_rsa_decrypt
      rw [h]
    refine ⟨?_, ?_⟩
    · intro h0
      rw [hval, if_pos h0, h0]
    · intro h0
      rw [hval, if_neg h0]

/-- Claim C1 witness: in a concrete store holding handle 7 under kidA,
with a provider that decrypts to [1, 2], the theorem yields the success
behaviour at that input. -/
theorem secrets_rsa_decrypt_spec_witness :
    g_hash_table_lookup_priv tW kidA = some 7
    ∧ (provW.gnutls_privkey_decrypt_data 7 [9]).1 = 0
    ∧ secrets_rsa_decrypt provW tW kidA [9] oW =
        (0, { out := (provW.gnutls_privkey_decrypt_data 7 [9]).2,
              out_len := Int.ofNat
                (provW.gnutls_privkey_decrypt_data 7 [9]).2.length }) :=
  ⟨by decide, by decide,
    ((secrets_rsa_decrypt_spec provW tW kidA [9] oW).2 7 (by decide)).1 (by decide)⟩

/-- Claim C10: whenever secrets_rsa_decrypt returns a non-zero (failure)
result, whether because the fingerprint is absent from the store or
because the provider decrypt failed, the output locations *out and
*out_len are left unwritten: they keep their prior contents. -/
theorem secrets_rsa_decrypt_no_write_on_failure (P : CryptoProvider)
    (t : PrivkeyTable) (key_id : cert_key_id_t) (encr : List Nat)
    (o : DecryptOut) (h : (secrets_rsa_decrypt P t key_id encr o).1 ≠ 0) :
    (secrets_rsa_decrypt P t key_id encr o).2 = o := by
  cases hl : g_hash_table_lookup_priv t key_id with
  | none =>
    have hval : secrets_rsa_decrypt P t key_id encr o =
        (GNUTLS_E_NO_CERTIFICATE_FOUND, o) := by
      unfold secrets_rsa_decrypt
      rw [hl]
    rw [hval]
  | some pkey =>
    have hval : secrets_rsa_decrypt P t key_id encr o =
        (if (P.gnutls_privkey_decrypt_data pkey encr).1 = 0
         then ((P.gnutls_privkey_decrypt_data pkey encr).1,
           { out := (P.gnutls_privkey_decrypt_data pkey encr).2,
             out_len := Int.ofNat
               (P.gnutls_privkey_decrypt_data pkey encr).2.length })
         else ((P.gnutls_privkey_decrypt_data pkey encr).1, o)) := by
      unfold secrets_rsa_decrypt
      rw [hl]
    rw [hval] at h ⊢
    by_cases h0 : (P.gnutls_privkey_decrypt_data pkey encr).1 = 0
    · rw [if_pos h0] at h
      exact absurd h0 h
    · rw [if_neg h0]

/-- Claim C10 witness: decrypting with a fingerprint absent from the
empty store fails (with a non-zero code) and leaves the output
locations at their prior contents. -/
theorem secrets_rsa_decrypt_no_write_on_failure_witness :
    (secrets_rsa_decrypt provW privkey_hash_table_new kidA [3] oW).1 ≠ 0
    ∧ (secrets_rsa_decrypt provW privkey_hash_table_new kidA [3] oW).2 = oW :=
  ⟨by decide,
    secrets_rsa_decrypt_no_write_on_failure provW privkey_hash_table_new kidA [3]
      oW (by decide)⟩

/-- Claim C8: for every type identifier with no registered handler,
secrets_wtap_callback with that type and any bytes invokes no handler
(and, being a pure read of the registry, raises no error and changes
neither the registry nor the store). -/
theorem secrets_wtap_callback_noop (tbl : SecretsCallbacks)
    (secrets_type : Nat) (secrets : List Nat) (size : Nat)
    (h : assocLookup tbl secrets_type = none) :
    secrets_wtap_callback tbl secrets_type secrets size = [] := by
  unfold secrets_wtap_callback
  rw [h]

/-- Claim C8 witness: dispatching type 9, never registered in the
concrete registry tblW, performs no invocation. -/
theorem secrets_wtap_callback_noop_witness :
    assocLookup tblW 9 = none ∧ secrets_wtap_callback tblW 9 [1, 2] 2 = [] :=
  ⟨by decide, secrets_wtap_callback_noop tblW 9 [1, 2] 2 (by decide)⟩

/-- Claim C6: the dispatch registry holds at most one handler per
secrets type (registration preserves key uniqueness), and after two
registrations for the same type a dispatch invokes only the second
handler, exactly once, with the given bytes. -/
theorem secrets_register_type_replaces (tbl : SecretsCallbacks)
    (secrets_type : Nat) (cb1 cb2 : secrets_block_callback_t)
    (secrets : List Nat) (size : Nat) :
    secrets_wtap_callback
        (secrets_register_type (secrets_register_type tbl secrets_type cb1)
          secrets_type cb2)
        secrets_type secrets size
      = [{ cb := cb2, secrets := secrets, size := size }]
    ∧ (∀ tbl2 : SecretsCallbacks, (tbl2.map Prod.fst).Nodup →
        ∀ ty cb, ((secrets_register_type tbl2 ty cb).map Prod.fst).Nodup) := by
  constructor
  · unfold secrets_wtap_callback secrets_register_type
    rw [assocLookup_insert_self]
  · intro tbl2 h ty cb
    exact assocInsert_keys_nodup tbl2 ty cb h

/-- Claim C6 witness: in the concrete registry tblW, registering
callbacks 11 then 12 for type 1 leaves dispatch invoking only 12, and
registration preserves key uniqueness. -/
theorem secrets_register_type_replaces_witness :
    ((tblW.map Prod.fst).Nodup
      ∧ ((secrets_register_type tblW 2 20).map Prod.fst).Nodup)
    ∧ secrets_wtap_callback
        (secrets_register_type (secrets_register_type tblW 1 11) 1 12) 1 [3] 1
        = [{ cb := 12, secrets := [3], size := 1 }] :=
  ⟨⟨by decide,
    (secrets_register_type_replaces tblW 1 11 12 [3] 1).2 tblW (by decide) 2 20⟩,
   (secrets_register_type_replaces tblW 1 11 12 [3] 1).1⟩

/-- Claim C2: in a reload, a failure to load one source (I/O, decode,
key import, or key-id failure) records exactly one error per source and
processing continues with the next source, so the recorded errors are
exactly the per-source errors of the failing sources, in order; the
report is surfaced exactly once, aggregating them, iff any error was
recorded; and the store contains a key under the fingerprint of every
source that loaded successfully. -/
theorem uat_rsa_privkeys_post_update_spec (env : LoadEnv)
    (records : List rsa_privkey_record_t) (t0 : PrivkeyTable) :
    (uat_rsa_privkeys_post_update env records t0).errors =
      records.filterMap (sourceError env)
    ∧ (uat_rsa_privkeys_post_update env records t0).reports =
        (if (uat_rsa_privkeys_post_update env records t0).errors = [] then []
         else [aggregateErrors (uat_rsa_privkeys_post_update env records t0).errors])
    ∧ (uat_rsa_privkeys_post_update env records t0).reports.length ≤ 1
    ∧ (∀ rec ∈ records, ∀ kv : cert_key_id_t × gnutls_privkey_t,
        sourceKey env rec = some kv →
        g_hash_table_lookup_priv
          (uat_rsa_privkeys_post_update env records t0).rsa_privkeys kv.1 ≠ none) := by
  refine ⟨post_update_errors env records t0, post_update_reports env records t0, ?_, ?_⟩
  · rw [post_update_reports]
    by_cases h : (uat_rsa_privkeys_post_update env records t0).errors = []
    · simp [h]
    · simp [h]
  · intro rec hmem kv hkv
    rw [post_update_store]
    exact lookup_foldl_of_source env records (g_hash_table_remove_all t0) rec hmem kv hkv

/-- Claim C2 witness: in the fixture batch the PKCS#12 source fails but
the PEM source recGood still loads, and its fingerprint kidG is found in
the store after the reload. -/
theorem uat_rsa_privkeys_post_update_spec_witness :
    recGood ∈ recsW
    ∧ sourceKey envW recGood = some (kidG, 101)
    ∧ g_hash_table_lookup_priv
        (uat_rsa_privkeys_post_update envW recsW privkey_hash_table_new).rsa_privkeys
        kidG ≠ none :=
  ⟨by decide, by decide,
    (uat_rsa_privkeys_post_update_spec envW recsW privkey_hash_table_new).2.2.2
      recGood (by decide) (kidG, 101) (by decide)⟩

/-- Claim C3: a reload empties the store before processing any source,
so its resulting entries are independent of the store it started from
(full replacement, never a merge), and the lookup of any fingerprint not
loaded from the new source list fails after the reload. -/
theorem post_update_full_replacement (env : LoadEnv)
    (records : List rsa_privkey_record_t) (t0 t1 : PrivkeyTable)
    (kid : cert_key_id_t) :
    (uat_rsa_privkeys_post_update env records t0).rsa_privkeys.entries =
      (uat_rsa_privkeys_post_update env records t1).rsa_privkeys.entries
    ∧ (kid ∉ loadedFingerprints env records →
        g_hash_table_lookup_priv
          (uat_rsa_privkeys_post_update env records t0).rsa_privkeys kid = none) := by
  constructor
  · rw [post_update_store, post_update_store]
    exact foldl_stepStore_entries_congr env records
      (g_hash_table_remove_all t0) (g_hash_table_remove_all t1) rfl
  · intro h
    rw [post_update_store,
      lookup_foldl_not_loaded env records (g_hash_table_remove_all t0) kid h]
    rfl

/-- Claim C3 witness: after reloading the fixture batch over a store
that held kidA, the old fingerprint kidA (whose source is not in the new
list) is no longer found, and the resulting entries match a reload from
the empty store. -/
theorem post_update_full_replacement_witness :
    kidA ∉ loadedFingerprints envW recsW
    ∧ (uat_rsa_privkeys_post_update envW recsW tW).rsa_privkeys.entries =
        (uat_rsa_privkeys_post_update envW recsW privkey_hash_table_new).rsa_privkeys.entries
    ∧ g_hash_table_lookup_priv
        (uat_rsa_privkeys_post_update envW recsW tW).rsa_privkeys kidA = none :=
  ⟨by decide,
   (post_update_full_replacement envW recsW tW privkey_hash_table_new kidA).1,
   (post_update_full_replacement envW recsW tW privkey_hash_table_new kidA).2 (by decide)⟩

/-- Claim C7: for every key source with a filesystem-path URI (one that
opens), the decoding format is selected from the password alone: an
empty password decodes the file as an unencrypted PEM private key
(rsa_load_pem_key) and a non-empty password as a password-protected
PKCS#12 container (rsa_load_pkcs12); a decode failure records the
descriptive per-source error and the batch continues with the remaining
sources. -/
theorem load_rsa_keyfile_format_selection (env : LoadEnv) (t : PrivkeyTable)
    (es : List String) (rec : rsa_privkey_record_t)
    (rest : List rsa_privkey_record_t) (m : String)
    (hopen : env.ws_fopen rec.uri = true) :
    (rec.password = "" →
      decodedKey env rec.uri rec.password = env.rsa_load_pem_key rec.uri)
    ∧ (rec.password ≠ "" →
      decodedKey env rec.uri rec.password = env.rsa_load_pkcs12 rec.uri rec.password)
    ∧ (decodedKey env rec.uri rec.password = Except.error m →
      load_rsa_keyfile env t rec.uri rec.password = (t, some (errLoadMsg rec.uri m))
      ∧ (strStartsWith PKCS11_URI rec.uri = false →
        (rec :: rest).foldl (processOne env) (t, es)
          = rest.foldl (processOne env) (t, es ++ [errLoadMsg rec.uri m]))) := by
  have hnf : ¬ env.ws_fopen rec.uri = false := by simp [hopen]
  refine ⟨?_, ?_, ?_⟩
  · intro h
    unfold decodedKey
    rw [if_pos h]
  · intro h
    unfold decodedKey
    rw [if_neg h]
  · intro hdec
    have hload : load_rsa_keyfile env t rec.uri rec.password
        = (t, some (errLoadMsg rec.uri m)) := by
      unfold load_rsa_keyfile
      rw [if_neg hnf, hdec]
    refine ⟨hload, ?_⟩
    intro hpk
    have hone : processOne env (t, es) rec = (t, es ++ [errLoadMsg rec.uri m]) := by
      unfold processOne
      rw [if_neg (by simp [hpk]), hload]
    rw [List.foldl_cons, hone]

/-- Claim C7 witness: the fixture PKCS#12 source recBad has a non-empty
password, is decoded via rsa_load_pkcs12 which fails, and the failure
records exactly the descriptive error while leaving the store untouched. -/
theorem load_rsa_keyfile_format_selection_witness :
    envW.ws_fopen recBad.uri = true
    ∧ recBad.password ≠ ""
    ∧ decodedKey envW recBad.uri recBad.password =
        envW.rsa_load_pkcs12 recBad.uri recBad.password
    ∧ decodedKey envW recBad.uri recBad.password = Except.error msgMac
    ∧ load_rsa_keyfile envW tW recBad.uri recBad.password =
        (tW, some (errLoadMsg recBad.uri msgMac)) :=
  ⟨by decide, by decide,
   (load_rsa_keyfile_format_selection envW tW [] recBad [] msgMac (by decide)).2.1
     (by decide),
   by decide,
   ((load_rsa_keyfile_format_selection envW tW [] recBad [] msgMac (by decide)).2.2
     (by decide)).1⟩

/-- Claim C9: a source whose URI begins with pkcs11: is skipped entirely
by the reload, regardless of its password: the whole reload outcome
(store, recorded errors, and report) is the same as if the source were
absent from the configured list. -/
theorem pkcs11_uri_skipped (env : LoadEnv)
    (pre post : List rsa_privkey_record_t) (rec : rsa_privkey_record_t)
    (t0 : PrivkeyTable) (h : strStartsWith PKCS11_URI rec.uri = true) :
    uat_rsa_privkeys_post_update env (pre ++ rec :: post) t0
      = uat_rsa_privkeys_post_update env (pre ++ post) t0 := by
  have hstep : ∀ acc : PrivkeyTable × List String, processOne env acc rec = acc := by
    intro acc
    unfold processOne
    rw [if_pos h]
  simp only [uat_rsa_privkeys_post_update, List.foldl_append, List.foldl_cons, hstep]

/-- Claim C9 witness: inserting the concrete pkcs11: record between the
two fixture file sources changes nothing about the reload outcome. -/
theorem pkcs11_uri_skipped_witness :
    strStartsWith PKCS11_URI recToken.uri = true
    ∧ uat_rsa_privkeys_post_update envW ([recGood] ++ recToken :: [recBad]) tW
        = uat_rsa_privkeys_post_update envW ([recGood] ++ [recBad]) tW :=
  ⟨by decide, pkcs11_uri_skipped envW [recGood] [recBad] recToken tW (by decide)⟩

/-- Claim C4 counterexample: with the fixture environment, batch and a
pre-reload store holding one key (a previously completed load), the
in-place reload of uat_rsa_privkeys_post_update is not atomic for
interleaved lookups: some observable state (the one right after the
initial clear) matches neither the complete pre-reload store nor the
complete post-reload store, and has zero keys even though a load had
completed successfully. -/
theorem reload_not_atomic_counterexample :
    ¬ (reloadAtomic envW recsW tW ∧ noEmptyWindow envW recsW tW) := by
  unfold reloadAtomic noEmptyWindow
  decide

/-- Claim C4 (amended): the in-place reload is not atomic with respect
to interleaved lookups.  The states observable while a reload runs are:
first the complete pre-reload store, then, immediately after the
initial g_hash_table_remove_all, a store with zero keys (regardless of
any previously completed load), then the successively repopulated
stores, the last observable state being the complete post-reload store.
Only a lookup not interleaved with the reload is guaranteed to see the
full pre-reload or full post-reload contents. -/
theorem reload_states_inplace (env : LoadEnv)
    (records : List rsa_privkey_record_t) (t0 : PrivkeyTable) :
    (reloadStates env records t0).head? = some t0
    ∧ (reloadStates env records t0).tail.head? = some (g_hash_table_remove_all t0)
    ∧ (g_hash_table_remove_all t0).entries = []
    ∧ (reloadStates env records t0).getLast? =
        some (uat_rsa_privkeys_post_update env records t0).rsa_privkeys := by
  refine ⟨rfl, ?_, rfl, ?_⟩
  · show (List.scanl (fun t rec => (processOne env (t, []) rec).1)
      (g_hash_table_remove_all t0) records).head? = some (g_hash_table_remove_all t0)
    cases records <;> rfl
  · show (t0 :: List.scanl (fun t rec => (processOne env (t, []) rec).1)
      (g_hash_table_remove_all t0) records).getLast? = _
    cases hs : List.scanl (fun t rec => (processOne env (t, []) rec).1)
        (g_hash_table_remove_all t0) records with
    | nil => cases records <;> simp [List.scanl] at hs
    | cons y ys =>
      rw [List.getLast?_cons_cons, ← hs, getLast?_scanl]
      rw [post_update_store]
      have hfun : (fun t rec => (processOne env (t, []) rec).1) = stepStore env := by
        funext t rec
        exact processOne_fst env t [] rec
      rw [hfun]

/-- Claim C5: the private-key store holds at most one handle per 20-byte
fingerprint at all times: an add under a fingerprint already present
replaces the previously stored handle and the replaced handle is
released, and duplicate-freeness of the stored fingerprints is preserved
by every sequence of add, lookup, clear and reload operations. -/
theorem privkey_store_invariant :
    (∀ (t : PrivkeyTable) (k : cert_key_id_t) (v old : gnutls_privkey_t),
      g_hash_table_lookup_priv t k = some old →
      g_hash_table_lookup_priv (rsa_privkey_add t k v) k = some v
      ∧ old ∈ (rsa_privkey_add t k v).released)
    ∧ (∀ (ops : List StoreOp) (t : PrivkeyTable), NoDupKeys t →
        NoDupKeys (ops.foldl applyOp t)) := by
  constructor
  · intro t k v old h
    refine ⟨lookup_add_self t k v, ?_⟩
    show old ∈ t.released ++ (assocLookup t.entries k).toList
    have hl : assocLookup t.entries k = some old := h
    rw [hl]
    simp
  · intro ops
    induction ops with
    | nil => intro t h; exact h
    | cons op rest ih =>
      intro t h
      exact ih (applyOp t op) (NoDupKeys_applyOp t op h)

/-- Claim C5 witness: in the concrete store tW holding handle 7 under
kidA, adding handle 9 under kidA replaces it and releases 7; and a
concrete sequence of add, replace, lookup, clear and reload operations
keeps the fingerprints duplicate-free. -/
theorem privkey_store_invariant_witness :
    (g_hash_table_lookup_priv tW kidA = some 7
      ∧ g_hash_table_lookup_priv (rsa_privkey_add tW kidA 9) kidA = some 9
      ∧ 7 ∈ (rsa_privkey_add tW kidA 9).released)
    ∧ (NoDupKeys privkey_hash_table_new
      ∧ NoDupKeys (opsW.foldl applyOp privkey_hash_table_new)) :=
  ⟨⟨by decide, (privkey_store_invariant.1 tW kidA 9 7 (by decide)).1,
    (privkey_store_invariant.1 tW kidA 9 7 (by decide)).2⟩,
   ⟨by decide, privkey_store_invariant.2 opsW privkey_hash_table_new (by decide)⟩⟩

end Secrets
